import Mathlib

/-!
Verification of the hazard-map geometric core (`src/app/LeafletHazardMap.tsx`,
consolidated variant).  The TypeScript functions are shallowly embedded as
executable Lean definitions over exact rational coordinates; calls into the
external turf library (area, bounding box, distance, polygon union, circle
buffering) are modelled as oracle parameters, since that library is not part
of this repository.
-/

/-- A GeoJSON position `[lng, lat]`, as an exact rational pair. -/
abbrev Pt : Type := ℚ × ℚ

/-- One linear ring of a polygon: a list of positions. -/
abbrev LinearRing : Type := List Pt

/-- The coordinates of one GeoJSON Polygon: outer ring followed by holes. -/
abbrev PolyCoords : Type := List LinearRing

/-- The `Hazard` type of the source: a GeoJSON Polygon or MultiPolygon. -/
inductive Hazard : Type where
  | polygon : PolyCoords → Hazard
  | multiPolygon : List PolyCoords → Hazard
deriving DecidableEq, Repr

/-- `ORS_MAX_AVOID_AREA_KM2 = 200` from the source. -/
def ORS_MAX_AVOID_AREA_KM2 : ℚ := 200

/-- `ORS_MAX_AVOID_BBOX_SIDE_KM = 20` from the source. -/
def ORS_MAX_AVOID_BBOX_SIDE_KM : ℚ := 20

/-- `MAX_DRAWN_CIRCLE_RADIUS_M = 5000` from the source. -/
def MAX_DRAWN_CIRCLE_RADIUS_M : ℚ := 5000

/-- `OFF_ROUTE_THRESHOLD_M = 40` from the source. -/
def OFF_ROUTE_THRESHOLD_M : ℚ := 40

/-- `MAX_ROUTE_KM_WITH_AVOID = 150` from the source. -/
def MAX_ROUTE_KM_WITH_AVOID : ℚ := 150

/-- The fallback filter of `unionHazards`: a member polygon is kept when its
outer ring has at least 4 points (`(g.coordinates?.[0]?.length ?? 0) >= 4`). -/
def keepPoly (c : PolyCoords) : Bool :=
  decide (4 ≤ (c.headD []).length)

/-- The fallback collection loop of `unionHazards`: every member polygon of
every hazard (Polygon or MultiPolygon) whose outer ring has at least 4 points
is pushed, in input order, without any deduplication. -/
def fallbackCoordinates (polys : List Hazard) : List PolyCoords :=
  polys.flatMap fun g =>
    match g with
    | .polygon c => if keepPoly c then [c] else []
    | .multiPolygon cs => cs.filter keepPoly

/-- The member polygons of a hazard geometry. -/
def polygonsOf : Hazard → List PolyCoords
  | .polygon c => [c]
  | .multiPolygon cs => cs

/-- `unionHazards` from the source.  `tryUnion` is the oracle modelling the
`try` block (the fold of `turf.union` over the hazards): `some g` means the
fold produced a feature with geometry `g`; `none` means a call threw or the
accumulated feature had no geometry, in which case the source falls through
to the concatenation fallback. -/
def unionHazards (tryUnion : List Hazard → Option Hazard) :
    List Hazard → Option Hazard
  | [] => none
  | [p] => some p
  | p :: q :: rest =>
    match tryUnion (p :: q :: rest) with
    | some g => some g
    | none =>
      let coordinates := fallbackCoordinates (p :: q :: rest)
      if coordinates = [] then none
      else some (.multiPolygon coordinates)

/-- Measurement oracles for one polygon, modelling the turf-based helpers
`polygonAreaKm2` (area in square kilometers) and `bboxSideKm` (geodesic
bounding-box width and height in kilometers). -/
structure GeoOracle : Type where
  areaKm2 : PolyCoords → ℚ
  bboxWidthKm : PolyCoords → ℚ
  bboxHeightKm : PolyCoords → ℚ

/-- One `DroppedHazard` record of the `avoidPolygons` loop:
`{ area, width, height }` as measured when a ring is rejected. -/
structure DroppedHazard : Type where
  area : ℚ
  width : ℚ
  height : ℚ
deriving DecidableEq, Repr

/-- The per-ring closure step of the `avoidPolygons` loop, exactly as coded:
skip (`continue`) when the outer ring is absent or has fewer than 4 points,
and only then close an open outer ring by appending its first point. -/
def normalizeOuter : PolyCoords → Option PolyCoords
  | [] => none
  | outer :: holes =>
    if outer.length < 4 then none
    else
      match outer with
      | [] => none
      | first :: rest =>
        if first = (first :: rest).getLastD first then
          some ((first :: rest) :: holes)
        else
          some (((first :: rest) ++ [first]) :: holes)

/-- The acceptance condition of the `avoidPolygons` loop:
`area <= ORS_MAX_AVOID_AREA_KM2 && width <= ORS_MAX_AVOID_BBOX_SIDE_KM &&
height <= ORS_MAX_AVOID_BBOX_SIDE_KM`. -/
def ringOk (G : GeoOracle) (p : PolyCoords) : Bool :=
  decide (G.areaKm2 p ≤ ORS_MAX_AVOID_AREA_KM2) &&
  decide (G.bboxWidthKm p ≤ ORS_MAX_AVOID_BBOX_SIDE_KM) &&
  decide (G.bboxHeightKm p ≤ ORS_MAX_AVOID_BBOX_SIDE_KM)

/-- The `DroppedHazard` record pushed for a rejected ring. -/
def measureDropped (G : GeoOracle) (p : PolyCoords) : DroppedHazard :=
  ⟨G.areaKm2 p, G.bboxWidthKm p, G.bboxHeightKm p⟩

/-- Outcome of the validation loop: the `validPolys` and `dropped` arrays. -/
structure ValidationResult : Type where
  validPolys : List PolyCoords
  dropped : List DroppedHazard
deriving DecidableEq, Repr

/-- The `for (const polyCoords of multi.coordinates)` loop of
`avoidPolygons`: normalize the outer ring (skipping degenerate entries),
then push each surviving polygon to `validPolys` when it passes `ringOk`
and push its measurements to `dropped` otherwise, preserving input order. -/
def processRings (G : GeoOracle) : List PolyCoords → ValidationResult
  | [] => ⟨[], []⟩
  | c :: rest =>
    let r := processRings G rest
    match normalizeOuter c with
    | none => r
    | some p =>
      if ringOk G p then ⟨p :: r.validPolys, r.dropped⟩
      else ⟨r.validPolys, measureDropped G p :: r.dropped⟩

/-- Normalization of the merged geometry to MultiPolygon coordinates:
a Polygon is wrapped in a singleton, a MultiPolygon keeps its coordinates. -/
def toMultiCoordinates : Hazard → List PolyCoords
  | .polygon c => [c]
  | .multiPolygon cs => cs

/-- `avoidPolygons` with its `dropped` report: `null` when there are no
hazards, when the union is `null`, or when zero rings pass validation;
otherwise the MultiPolygon of the accepted rings. -/
def avoidPolygonsFull (tryUnion : List Hazard → Option Hazard) (G : GeoOracle)
    (hazards : List Hazard) : Option (List PolyCoords) × List DroppedHazard :=
  match hazards with
  | [] => (none, [])
  | _ :: _ =>
    match unionHazards tryUnion hazards with
    | none => (none, [])
    | some merged =>
      let r := processRings G (toMultiCoordinates merged)
      (if r.validPolys = [] then none else some r.validPolys, r.dropped)

/-- The `avoidPolygons` memo value itself (the accepted MultiPolygon
coordinates, or `null`). -/
def avoidPolygons (tryUnion : List Hazard → Option Hazard) (G : GeoOracle)
    (hazards : List Hazard) : Option (List PolyCoords) :=
  (avoidPolygonsFull tryUnion G hazards).1

/-- The `options` object of the routing request body.  A `none` value of
`avoid_polygons` models `avoidPolygons || undefined`: the key is omitted
from the serialized request. -/
structure RequestOptions : Type where
  avoid_polygons : Option (List PolyCoords)
  avoid_features : List String
deriving DecidableEq, Repr

/-- The routing request body built by `fetchRoute`: `[lng, lat]` coordinate
pairs for start and end, plus the options object. -/
structure RequestBody : Type where
  coordinates : List Pt
  options : RequestOptions
deriving DecidableEq, Repr

/-- What `fetchRoute` does before any network I/O: return early with no
endpoints, return early with the too-long alert, or issue the request. -/
inductive FetchOutcome : Type where
  | missingEndpoint
  | tooLong (estKm : ℚ)
  | request (body : RequestBody)
deriving DecidableEq, Repr

/-- The pre-flight portion of `fetchRoute`.  `approxKm` is the oracle for
`approxStartEndKm` (geodesic start-end distance via `turf.distance`);
`start?` and `end?` hold `[lat, lng]` pairs.  The route-length guard runs
only when `avoidPolygons` is non-null, and the built body swaps each
endpoint to `[lng, lat]`. -/
def fetchRoute (approxKm : Pt → Pt → ℚ) (start? end? : Option Pt)
    (avoid : Option (List PolyCoords)) : FetchOutcome :=
  match start?, end? with
  | some s, some e =>
    if avoid.isSome && decide (MAX_ROUTE_KM_WITH_AVOID < approxKm s e) then
      .tooLong (approxKm s e)
    else
      .request ⟨[(s.2, s.1), (e.2, e.1)], ⟨avoid, []⟩⟩
  | _, _ => .missingEndpoint

/-- The deviation outputs of `computeOffRoute`: the `offRouteMeters` and
`offRoute` state values set by the callback. -/
structure DeviationState : Type where
  offRouteMeters : ℚ
  offRoute : Bool
deriving DecidableEq, Repr

/-- `computeOffRoute` from the source.  `pointToLineDistance` is the oracle
for `turf.pointToLineDistance` in meters; `routeLngLat` is the active route
(`[lng, lat]` points) and `pos` the position sample as a `[lat, lng]` pair.
With no route, or a route of fewer than 2 points, both outputs reset to
zero/false; otherwise the flag is `distance > OFF_ROUTE_THRESHOLD_M`. -/
def computeOffRoute (pointToLineDistance : Pt → List Pt → ℚ)
    (routeLngLat : Option (List Pt)) (pos : ℚ × ℚ) : DeviationState :=
  match routeLngLat with
  | none => ⟨0, false⟩
  | some line =>
    if line.length < 2 then ⟨0, false⟩
    else
      let d := pointToLineDistance (pos.2, pos.1) line
      ⟨d, decide (OFF_ROUTE_THRESHOLD_M < d)⟩

/-- A layer handed to the draw-created callback: an `L.Circle` with its
center and radius in meters, a layer whose `toGeoJSON()` yields a Polygon
or MultiPolygon geometry, or anything else (ignored). -/
inductive DrawLayer : Type where
  | circleLayer (center : Pt) (radiusMeters : ℚ)
  | shapeLayer (geom : Hazard)
  | otherLayer
deriving DecidableEq, Repr

/-- Provenance tag for a hazard in the working set, recording the data the
source had at creation time (the drawn-circle radius, or the clamped buffer
radius of a hazard point). -/
inductive HazardOrigin : Type where
  | drawnCircle (radiusMeters : ℚ)
  | drawnShape
  | bufferedPoint (radiusMeters : ℚ)
deriving DecidableEq, Repr

/-- A hazard of the working set together with its origin. -/
structure TaggedHazard : Type where
  origin : HazardOrigin
  geom : Hazard
deriving DecidableEq, Repr

/-- The `onCreated` draw callback.  `circleGeom` is the oracle for
`turf.circle` (64-step circle polygon around a center).  A circle whose
radius exceeds `MAX_DRAWN_CIRCLE_RADIUS_M` is rejected: the layer is removed
and nothing is appended to the hazard set.  Any other circle, and any layer
converting to a Polygon/MultiPolygon, is appended. -/
def onCreated (circleGeom : Pt → ℚ → Hazard) (layer : DrawLayer)
    (hazards : List TaggedHazard) : List TaggedHazard :=
  match layer with
  | .circleLayer c r =>
    if MAX_DRAWN_CIRCLE_RADIUS_M < r then hazards
    else hazards ++ [⟨.drawnCircle r, circleGeom c r⟩]
  | .shapeLayer g => hazards ++ [⟨.drawnShape, g⟩]
  | .otherLayer => hazards

/-- `addBufferedHazardPoint`: buffers a clicked point into a circle of
`max(1, hazardBufferMeters) / 1000` kilometers and appends it, with no
radius ceiling. -/
def addBufferedHazardPoint (circleGeom : Pt → ℚ → Hazard)
    (hazardBufferMeters : ℚ) (latlng : Pt)
    (hazards : List TaggedHazard) : List TaggedHazard :=
  hazards ++
    [⟨.bufferedPoint (max 1 hazardBufferMeters),
      circleGeom latlng (max 1 hazardBufferMeters / 1000)⟩]

/-- The rebuild shared by the `onEdited` and `onDeleted` draw callbacks:
the hazard set is replaced wholesale by the conversion of every layer left
in the draw group (`toGeoJSONPolygon` over `eachLayer`), with no radius
check on circle layers. -/
def rebuildFromLayers (circleGeom : Pt → ℚ → Hazard)
    (layers : List DrawLayer) : List TaggedHazard :=
  layers.filterMap fun layer =>
    match layer with
    | .circleLayer c r => some ⟨.drawnCircle r, circleGeom c r⟩
    | .shapeLayer g => some ⟨.drawnShape, g⟩
    | .otherLayer => none

/-- The hazard-set mutations of the source: a draw-created layer, a
buffered hazard-point click, the clear-hazards button, and the edit and
delete callbacks, both of which rebuild the set from the layers remaining
in the draw group. -/
inductive HazardEvent : Type where
  | created (layer : DrawLayer)
  | hazardPoint (bufferMeters : ℚ) (latlng : Pt)
  | clearHazards
  | edited (layers : List DrawLayer)
  | deleted (layers : List DrawLayer)
deriving DecidableEq, Repr

/-- One hazard-set mutation step. -/
def stepHazards (circleGeom : Pt → ℚ → Hazard)
    (hazards : List TaggedHazard) : HazardEvent → List TaggedHazard
  | .created layer => onCreated circleGeom layer hazards
  | .hazardPoint m p => addBufferedHazardPoint circleGeom m p hazards
  | .clearHazards => []
  | .edited layers => rebuildFromLayers circleGeom layers
  | .deleted layers => rebuildFromLayers circleGeom layers

/-- Whether an event mutates the working set without rebuilding it from
the draw group: everything but the edit and delete callbacks. -/
def noRebuild : HazardEvent → Bool
  | .edited _ => false
  | .deleted _ => false
  | _ => true

/-- The hazard working set reached from the empty set by a list of events. -/
def runEvents (circleGeom : Pt → ℚ → Hazard)
    (events : List HazardEvent) : List TaggedHazard :=
  events.foldl (stepHazards circleGeom) []

/-- Modelled from the spec: the `normalizeRing` contract of section 4.1,
which is absent from the source as a separate function — it first closes an
open ring by appending its first point and only then fails (drops) if fewer
than 4 points remain.  Named with a `Spec` suffix for comparison with the
source-translated `normalizeOuter`. -/
def normalizeOuterSpec : PolyCoords → Option PolyCoords
  | [] => none
  | outer :: holes =>
    match outer with
    | [] => none
    | first :: rest =>
      let closed :=
        if first = (first :: rest).getLastD first then first :: rest
        else (first :: rest) ++ [first]
      if closed.length < 4 then none else some (closed :: holes)

/-- An oracle reporting zero area and zero bounding sides for every polygon
(every measured ring passes the limits). -/
def zeroOracle : GeoOracle := ⟨fun _ => 0, fun _ => 0, fun _ => 0⟩

/-- An oracle reporting a 300 square-kilometer area for every polygon
(every measured ring fails the area limit). -/
def bigAreaOracle : GeoOracle := ⟨fun _ => 300, fun _ => 0, fun _ => 0⟩

/-- Claim C5: `union` applied to the empty hazard list returns None, and
`union` applied to a single-element hazard list returns that hazard's
geometry unchanged, whatever the union oracle does. -/
theorem unionHazards_empty_single :
    (∀ u : List Hazard → Option Hazard, unionHazards u [] = none) ∧
    (∀ (u : List Hazard → Option Hazard) (h : Hazard),
      unionHazards u [h] = some h) :=
  ⟨fun _ => rfl, fun _ _ => rfl⟩

/-- Claim C3: on every sample evaluated against an active route of at least
2 points, `computeOffRoute` reports exactly the oracle distance and sets the
off-route flag precisely when that distance strictly exceeds
`OFF_ROUTE_THRESHOLD_M` (40 meters); hence a distance of exactly 40 meters
yields on-route and 41 meters yields off-route. -/
theorem computeOffRoute_threshold (dist : Pt → List Pt → ℚ)
    (route : List Pt) (pos : ℚ × ℚ) (h : 2 ≤ route.length) :
    (computeOffRoute dist (some route) pos).offRouteMeters =
      dist (pos.2, pos.1) route ∧
    ((computeOffRoute dist (some route) pos).offRoute = true ↔
      OFF_ROUTE_THRESHOLD_M < dist (pos.2, pos.1) route) := by
  have hlt : ¬ route.length < 2 := by omega
  constructor
  · simp [computeOffRoute, hlt]
  · simp [computeOffRoute, hlt]

/-- Witness for C3: on a concrete 2-point route, a constant 40-meter
distance oracle yields `offRoute = false` and a constant 41-meter oracle
yields `offRoute = true`. -/
theorem computeOffRoute_threshold_witness :
    2 ≤ ([((0 : ℚ), (0 : ℚ)), ((0 : ℚ), (1 : ℚ))] : List Pt).length ∧
    (computeOffRoute (fun _ _ => (40 : ℚ))
      (some [((0 : ℚ), (0 : ℚ)), ((0 : ℚ), (1 : ℚ))])
      ((0 : ℚ), (0 : ℚ))).offRoute = false ∧
    (computeOffRoute (fun _ _ => (41 : ℚ))
      (some [((0 : ℚ), (0 : ℚ)), ((0 : ℚ), (1 : ℚ))])
      ((0 : ℚ), (0 : ℚ))).offRoute = true := by
  refine ⟨by decide, ?_, ?_⟩
  · cases hx : (computeOffRoute (fun _ _ => (40 : ℚ))
        (some [((0 : ℚ), (0 : ℚ)), ((0 : ℚ), (1 : ℚ))])
        ((0 : ℚ), (0 : ℚ))).offRoute with
    | false => rfl
    | true =>
      exact absurd
        ((computeOffRoute_threshold (fun _ _ => (40 : ℚ))
          [((0 : ℚ), (0 : ℚ)), ((0 : ℚ), (1 : ℚ))] ((0 : ℚ), (0 : ℚ))
          (by decide)).2.mp hx)
        (by decide)
  · exact (computeOffRoute_threshold (fun _ _ => (41 : ℚ))
      [((0 : ℚ), (0 : ℚ)), ((0 : ℚ), (1 : ℚ))] ((0 : ℚ), (0 : ℚ))
      (by decide)).2.mpr (by decide)

/-- Claim C6: with no active route, or with a route of fewer than 2 points,
`computeOffRoute` does not error: it resets both outputs, reporting zero
distance and an off-route flag of false. -/
theorem computeOffRoute_noRoute (dist : Pt → List Pt → ℚ) (pos : ℚ × ℚ) :
    computeOffRoute dist none pos = ⟨0, false⟩ ∧
    ∀ route : List Pt, route.length < 2 →
      computeOffRoute dist (some route) pos = ⟨0, false⟩ := by
  refine ⟨rfl, fun route h => ?_⟩
  simp [computeOffRoute, h]

/-- Witness for C6: a one-point route and an absent route both reset the
deviation outputs, even under an oracle reporting a 7-meter distance. -/
theorem computeOffRoute_noRoute_witness :
    ([((0 : ℚ), (0 : ℚ))] : List Pt).length < 2 ∧
    computeOffRoute (fun _ _ => (7 : ℚ)) (some [((0 : ℚ), (0 : ℚ))])
      ((0 : ℚ), (0 : ℚ)) = ⟨0, false⟩ ∧
    computeOffRoute (fun _ _ => (7 : ℚ)) none ((0 : ℚ), (0 : ℚ)) =
      ⟨0, false⟩ :=
  ⟨by decide,
   (computeOffRoute_noRoute (fun _ _ => (7 : ℚ)) ((0 : ℚ), (0 : ℚ))).2
     [((0 : ℚ), (0 : ℚ))] (by decide),
   (computeOffRoute_noRoute (fun _ _ => (7 : ℚ)) ((0 : ℚ), (0 : ℚ))).1⟩

/-- Claim C4: with both endpoints set, an active avoidance constraint, and
estimated distance strictly above `MAX_ROUTE_KM_WITH_AVOID` (150 km),
`fetchRoute` stops at the too-long guard, issuing no request; with no
avoidance, the same endpoints always reach the request, whatever the
distance oracle reports. -/
theorem fetchRoute_guard (approxKm : Pt → Pt → ℚ) (s e : Pt)
    (avoid : Option (List PolyCoords)) :
    (avoid.isSome = true → MAX_ROUTE_KM_WITH_AVOID < approxKm s e →
      fetchRoute approxKm (some s) (some e) avoid =
        FetchOutcome.tooLong (approxKm s e)) ∧
    fetchRoute approxKm (some s) (some e) none =
      FetchOutcome.request ⟨[(s.2, s.1), (e.2, e.1)], ⟨none, []⟩⟩ := by
  constructor
  · intro hs hd
    simp [fetchRoute, hs, hd]
  · simp [fetchRoute]

/-- Witness for C4: origin `(0,0)`, destination `(0,2)`, a distance oracle
reporting 222 km.  With an avoidance constraint the outcome is the too-long
guard; without one it is the request, with the avoidance option omitted. -/
theorem fetchRoute_guard_witness :
    (some ([] : List PolyCoords)).isSome = true ∧
    MAX_ROUTE_KM_WITH_AVOID < (222 : ℚ) ∧
    fetchRoute (fun _ _ => (222 : ℚ)) (some ((0 : ℚ), (0 : ℚ)))
      (some ((0 : ℚ), (2 : ℚ))) (some []) = FetchOutcome.tooLong 222 ∧
    fetchRoute (fun _ _ => (222 : ℚ)) (some ((0 : ℚ), (0 : ℚ)))
      (some ((0 : ℚ), (2 : ℚ))) none =
      FetchOutcome.request
        ⟨[((0 : ℚ), (0 : ℚ)), ((2 : ℚ), (0 : ℚ))], ⟨none, []⟩⟩ :=
  ⟨rfl, by decide,
   (fetchRoute_guard (fun _ _ => (222 : ℚ)) ((0 : ℚ), (0 : ℚ))
     ((0 : ℚ), (2 : ℚ)) (some [])).1 rfl (by decide),
   (fetchRoute_guard (fun _ _ => (222 : ℚ)) ((0 : ℚ), (0 : ℚ))
     ((0 : ℚ), (2 : ℚ)) (some [])).2⟩

/-- The claim-side acceptance selector for one entry of the merged
multipolygon: the normalized ring when it survives closure normalization
and passes the size limits. -/
def acceptFilter (G : GeoOracle) (c : PolyCoords) : Option PolyCoords :=
  match normalizeOuter c with
  | some p => if ringOk G p then some p else none
  | none => none

/-- The claim-side drop selector for one entry of the merged multipolygon:
the measured area/width/height record when the normalized ring fails the
size limits. -/
def dropFilter (G : GeoOracle) (c : PolyCoords) : Option DroppedHazard :=
  match normalizeOuter c with
  | some p => if ringOk G p then none else some (measureDropped G p)
  | none => none

theorem processRings_eq (G : GeoOracle) (multi : List PolyCoords) :
    processRings G multi =
      ⟨multi.filterMap (acceptFilter G), multi.filterMap (dropFilter G)⟩ := by
  induction multi with
  | nil => rfl
  | cons c rest ih =>
    simp only [processRings, ih, List.filterMap_cons, acceptFilter, dropFilter]
    cases hn : normalizeOuter c with
    | none => rfl
    | some p => cases hr : ringOk G p <;> simp [hr]

theorem acceptFilter_eq_some (G : GeoOracle) (c p : PolyCoords) :
    acceptFilter G c = some p ↔
      normalizeOuter c = some p ∧ ringOk G p = true := by
  cases hn : normalizeOuter c with
  | none =>
    have he : acceptFilter G c = none := by
      unfold acceptFilter; rw [hn]
    rw [he]
    simp
  | some q =>
    have he : acceptFilter G c =
        (if ringOk G q = true then some q else none) := by
      unfold acceptFilter; rw [hn]
    rw [he]
    by_cases hr : ringOk G q = true
    · rw [if_pos hr]
      constructor
      · intro h
        obtain rfl := Option.some.inj h
        exact ⟨rfl, hr⟩
      · exact fun h => h.1
    · rw [if_neg hr]
      constructor
      · intro h; exact absurd h (by simp)
      · rintro ⟨hq, hp⟩
        obtain rfl := Option.some.inj hq
        exact absurd hp hr

theorem dropFilter_eq_some (G : GeoOracle) (c : PolyCoords)
    (d : DroppedHazard) :
    dropFilter G c = some d ↔
      ∃ p, normalizeOuter c = some p ∧ ringOk G p = false ∧
        d = measureDropped G p := by
  cases hn : normalizeOuter c with
  | none =>
    have he : dropFilter G c = none := by
      unfold dropFilter; rw [hn]
    rw [he]
    simp
  | some q =>
    have he : dropFilter G c =
        (if ringOk G q = true then none
         else some (measureDropped G q)) := by
      unfold dropFilter; rw [hn]
    rw [he]
    by_cases hr : ringOk G q = true
    · rw [if_pos hr]
      constructor
      · intro h; exact absurd h (by simp)
      · rintro ⟨p, hp, hpf, _⟩
        obtain rfl := Option.some.inj hp
        rw [hr] at hpf
        exact absurd hpf (by simp)
    · rw [if_neg hr]
      have hrf : ringOk G q = false := by simpa using hr
      constructor
      · intro h
        obtain rfl := Option.some.inj h
        exact ⟨q, rfl, hrf, rfl⟩
      · rintro ⟨p, hp, hpf, rfl⟩
        obtain rfl := Option.some.inj hp
        rfl

/-- Claim C1: running the validation loop of `avoidPolygons` on the merged
multipolygon, a ring surviving closure normalization is placed in the
accepted set exactly when its measured area is at most
`ORS_MAX_AVOID_AREA_KM2` and its bounding-box width and height are each at
most `ORS_MAX_AVOID_BBOX_SIDE_KM`; each entry failing that condition
contributes exactly one record to the dropped list, carrying its measured
area, width and height, and is excluded from the accepted set — the two
output lists are precisely the selections of the passing rings and of the
failing rings' measurement records, in input order. -/
theorem validate_accept_iff_within_limits (G : GeoOracle)
    (multi : List PolyCoords) :
    processRings G multi =
      ⟨multi.filterMap (acceptFilter G), multi.filterMap (dropFilter G)⟩ ∧
    (∀ p, p ∈ (processRings G multi).validPolys ↔
      ∃ c ∈ multi, normalizeOuter c = some p ∧ ringOk G p = true) ∧
    (∀ d, d ∈ (processRings G multi).dropped ↔
      ∃ c ∈ multi, ∃ p, normalizeOuter c = some p ∧ ringOk G p = false ∧
        d = measureDropped G p) := by
  refine ⟨processRings_eq G multi, fun p => ?_, fun d => ?_⟩
  · rw [processRings_eq]
    simp [List.mem_filterMap, acceptFilter_eq_some]
  · rw [processRings_eq]
    simp [List.mem_filterMap, dropFilter_eq_some]

/-- Witness for C1: a concrete closed 4-point ring measured at 300 square
kilometers is rejected, and the dropped list evaluates to exactly one
record carrying those measurements. -/
theorem validate_accept_iff_witness :
    processRings bigAreaOracle
        [[[((0 : ℚ), (0 : ℚ)), ((1 : ℚ), (0 : ℚ)), ((0 : ℚ), (1 : ℚ)),
           ((0 : ℚ), (0 : ℚ))]]] =
      ⟨[[[((0 : ℚ), (0 : ℚ)), ((1 : ℚ), (0 : ℚ)), ((0 : ℚ), (1 : ℚ)),
          ((0 : ℚ), (0 : ℚ))]]].filterMap (acceptFilter bigAreaOracle),
       [[[((0 : ℚ), (0 : ℚ)), ((1 : ℚ), (0 : ℚ)), ((0 : ℚ), (1 : ℚ)),
          ((0 : ℚ), (0 : ℚ))]]].filterMap (dropFilter bigAreaOracle)⟩ ∧
    [[[((0 : ℚ), (0 : ℚ)), ((1 : ℚ), (0 : ℚ)), ((0 : ℚ), (1 : ℚ)),
       ((0 : ℚ), (0 : ℚ))]]].filterMap (dropFilter bigAreaOracle) =
      [⟨300, 0, 0⟩] :=
  ⟨(validate_accept_iff_within_limits bigAreaOracle _).1, by decide⟩

theorem mem_fallbackCoordinates (polys : List Hazard) (c : PolyCoords) :
    c ∈ fallbackCoordinates polys ↔
      ∃ g ∈ polys, c ∈ polygonsOf g ∧ keepPoly c = true := by
  unfold fallbackCoordinates
  simp only [List.mem_flatMap]
  constructor
  · rintro ⟨g, hg, hc⟩
    refine ⟨g, hg, ?_⟩
    cases g with
    | polygon pc =>
      have hc' : c ∈ (if keepPoly pc = true then [pc] else []) := hc
      by_cases hk : keepPoly pc = true
      · rw [if_pos hk] at hc'
        obtain rfl := List.mem_singleton.mp hc'
        exact ⟨List.mem_singleton.mpr rfl, hk⟩
      · rw [if_neg hk] at hc'
        exact absurd hc' (List.not_mem_nil c)
    | multiPolygon cs =>
      have hc' : c ∈ cs.filter keepPoly := hc
      obtain ⟨hmem, hk⟩ := List.mem_filter.mp hc'
      exact ⟨hmem, hk⟩
  · rintro ⟨g, hg, hcg, hk⟩
    refine ⟨g, hg, ?_⟩
    cases g with
    | polygon pc =>
      obtain rfl := List.mem_singleton.mp hcg
      show c ∈ (if keepPoly c = true then [c] else [])
      rw [if_pos hk]
      exact List.mem_singleton.mpr rfl
    | multiPolygon cs =>
      show c ∈ cs.filter keepPoly
      exact List.mem_filter.mpr ⟨hcg, hk⟩

/-- Counterexample to C2 as stated: with two hazards whose only rings have
3 points, a failing union does not produce a MultiPolygon at all — the
fallback returns None, since no ring qualifies. -/
theorem unionFallback_empty_counterexample :
    unionHazards (fun _ => none)
      [Hazard.polygon
        [[((0 : ℚ), (0 : ℚ)), ((1 : ℚ), (0 : ℚ)), ((0 : ℚ), (0 : ℚ))]],
       Hazard.polygon
        [[((0 : ℚ), (0 : ℚ)), ((1 : ℚ), (0 : ℚ)), ((0 : ℚ), (0 : ℚ))]]] =
      none := by decide

/-- Claim C2 as amended: on every hazard list of at least two elements on
which the union oracle fails, `unionHazards` falls back, without throwing
(it is a total function), to a MultiPolygon whose members are exactly the
member polygons of the input hazards (from both Polygon and MultiPolygon
hazards) whose outer ring has at least 4 points, kept in input order and
without deduplicating overlaps — except that when no polygon qualifies the
fallback returns None instead of an empty MultiPolygon. -/
theorem unionFallback_members (u : List Hazard → Option Hazard)
    (polys : List Hazard) (h2 : 2 ≤ polys.length) (hu : u polys = none) :
    unionHazards u polys =
      (if fallbackCoordinates polys = [] then none
       else some (Hazard.multiPolygon (fallbackCoordinates polys))) ∧
    ∀ c : PolyCoords, c ∈ fallbackCoordinates polys ↔
      ∃ g ∈ polys, c ∈ polygonsOf g ∧ keepPoly c = true := by
  refine ⟨?_, mem_fallbackCoordinates polys⟩
  cases polys with
  | nil => simp at h2
  | cons p t =>
    cases t with
    | nil => simp at h2
    | cons q rest =>
      have he : unionHazards u (p :: q :: rest) =
          (match u (p :: q :: rest) with
           | some g => some g
           | none =>
             if fallbackCoordinates (p :: q :: rest) = [] then none
             else some (.multiPolygon (fallbackCoordinates
               (p :: q :: rest)))) := rfl
      rw [he, hu]

/-- Witness for C2's amended theorem: two closed 4-point triangles whose
union fails fall back to exactly the two-member MultiPolygon. -/
theorem unionFallback_members_witness :
    2 ≤ ([Hazard.polygon
           [[((0 : ℚ), (0 : ℚ)), ((1 : ℚ), (0 : ℚ)), ((0 : ℚ), (1 : ℚ)),
             ((0 : ℚ), (0 : ℚ))]],
          Hazard.polygon
           [[((5 : ℚ), (5 : ℚ)), ((6 : ℚ), (5 : ℚ)), ((5 : ℚ), (6 : ℚ)),
             ((5 : ℚ), (5 : ℚ))]]] : List Hazard).length ∧
    unionHazards (fun _ => none)
      [Hazard.polygon
        [[((0 : ℚ), (0 : ℚ)), ((1 : ℚ), (0 : ℚ)), ((0 : ℚ), (1 : ℚ)),
          ((0 : ℚ), (0 : ℚ))]],
       Hazard.polygon
        [[((5 : ℚ), (5 : ℚ)), ((6 : ℚ), (5 : ℚ)), ((5 : ℚ), (6 : ℚ)),
          ((5 : ℚ), (5 : ℚ))]]] =
      (if fallbackCoordinates
            [Hazard.polygon
              [[((0 : ℚ), (0 : ℚ)), ((1 : ℚ), (0 : ℚ)), ((0 : ℚ), (1 : ℚ)),
                ((0 : ℚ), (0 : ℚ))]],
             Hazard.polygon
              [[((5 : ℚ), (5 : ℚ)), ((6 : ℚ), (5 : ℚ)), ((5 : ℚ), (6 : ℚ)),
                ((5 : ℚ), (5 : ℚ))]]] = []
       then none
       else some (Hazard.multiPolygon (fallbackCoordinates
            [Hazard.polygon
              [[((0 : ℚ), (0 : ℚ)), ((1 : ℚ), (0 : ℚ)), ((0 : ℚ), (1 : ℚ)),
                ((0 : ℚ), (0 : ℚ))]],
             Hazard.polygon
              [[((5 : ℚ), (5 : ℚ)), ((6 : ℚ), (5 : ℚ)), ((5 : ℚ), (6 : ℚ)),
                ((5 : ℚ), (5 : ℚ))]]]))) :=
  ⟨by decide, (unionFallback_members (fun _ => none) _ (by decide) rfl).1⟩

/-- Claim C7: whenever zero rings pass validation — including when the
hazard set is empty or the union result is None — `avoidPolygons` is None,
and the request then built by `fetchRoute` omits the `avoid_polygons`
option entirely (the field is absent, not an empty constraint). -/
theorem avoidPolygons_none_omits (u : List Hazard → Option Hazard)
    (G : GeoOracle) (hz : List Hazard) (approxKm : Pt → Pt → ℚ) (s e : Pt)
    (hpass : ∀ m, unionHazards u hz = some m →
      (processRings G (toMultiCoordinates m)).validPolys = []) :
    avoidPolygons u G hz = none ∧
    fetchRoute approxKm (some s) (some e) (avoidPolygons u G hz) =
      FetchOutcome.request ⟨[(s.2, s.1), (e.2, e.1)], ⟨none, []⟩⟩ := by
  have h1 : avoidPolygons u G hz = none := by
    unfold avoidPolygons avoidPolygonsFull
    cases hz with
    | nil => rfl
    | cons a t =>
      cases hm : unionHazards u (a :: t) with
      | none => rfl
      | some m =>
        have hv := hpass m hm
        simp [hv]
  refine ⟨h1, ?_⟩
  rw [h1]
  simp [fetchRoute]

/-- Witness for C7: a single closed triangle measured at 300 square
kilometers is dropped, zero rings pass, and the concrete request carries no
avoidance option. -/
theorem avoidPolygons_none_omits_witness :
    avoidPolygons (fun _ => none) bigAreaOracle
      [Hazard.polygon
        [[((0 : ℚ), (0 : ℚ)), ((1 : ℚ), (0 : ℚ)), ((0 : ℚ), (1 : ℚ)),
          ((0 : ℚ), (0 : ℚ))]]] = none ∧
    fetchRoute (fun _ _ => (10 : ℚ)) (some ((0 : ℚ), (0 : ℚ)))
      (some ((0 : ℚ), (1 : ℚ)))
      (avoidPolygons (fun _ => none) bigAreaOracle
        [Hazard.polygon
          [[((0 : ℚ), (0 : ℚ)), ((1 : ℚ), (0 : ℚ)), ((0 : ℚ), (1 : ℚ)),
            ((0 : ℚ), (0 : ℚ))]]]) =
      FetchOutcome.request
        ⟨[((0 : ℚ), (0 : ℚ)), ((1 : ℚ), (0 : ℚ))], ⟨none, []⟩⟩ :=
  avoidPolygons_none_omits (fun _ => none) bigAreaOracle _ _ _ _ (by
    intro m hm
    have hu : unionHazards (fun _ => none)
        [Hazard.polygon
          [[((0 : ℚ), (0 : ℚ)), ((1 : ℚ), (0 : ℚ)), ((0 : ℚ), (1 : ℚ)),
            ((0 : ℚ), (0 : ℚ))]]] =
        some (Hazard.polygon
          [[((0 : ℚ), (0 : ℚ)), ((1 : ℚ), (0 : ℚ)), ((0 : ℚ), (1 : ℚ)),
            ((0 : ℚ), (0 : ℚ))]]) := rfl
    rw [hu] at hm
    obtain rfl := Option.some.inj hm
    decide)

/-- Counterexample to C8 as stated: an unclosed ring of exactly 3 distinct
points is skipped by the validator, not kept.  The source checks the
4-point minimum on the outer ring before closing it, so this ring — which
the spec-side normalization would close to 4 points and keep — reaches
neither the accepted set nor the dropped list. -/
theorem normalize_open_triangle_counterexample :
    normalizeOuter
        [[((0 : ℚ), (0 : ℚ)), ((1 : ℚ), (0 : ℚ)), ((0 : ℚ), (1 : ℚ))]] =
      none ∧
    normalizeOuterSpec
        [[((0 : ℚ), (0 : ℚ)), ((1 : ℚ), (0 : ℚ)), ((0 : ℚ), (1 : ℚ))]] =
      some [[((0 : ℚ), (0 : ℚ)), ((1 : ℚ), (0 : ℚ)), ((0 : ℚ), (1 : ℚ)),
             ((0 : ℚ), (0 : ℚ))]] ∧
    processRings zeroOracle
        [[[((0 : ℚ), (0 : ℚ)), ((1 : ℚ), (0 : ℚ)), ((0 : ℚ), (1 : ℚ))]]] =
      ⟨[], []⟩ := by
  refine ⟨by decide, by decide, by decide⟩

/-- Claim C8 as amended: the validator checks the 4-point minimum on the
outer ring before closure normalization — a ring with fewer than 4 points
as given is silently skipped (contributing to neither output list of the
loop), and only rings with at least 4 points are then closed, by appending
the first point when first and last differ, and measured.  In particular an
unclosed ring of exactly 3 distinct points is skipped, not kept. -/
theorem normalize_checks_before_closing :
    (∀ (outer : LinearRing) (holes : List LinearRing), outer.length < 4 →
      normalizeOuter (outer :: holes) = none) ∧
    (∀ (first : Pt) (rest : LinearRing) (holes : List LinearRing),
      4 ≤ (first :: rest).length →
      ¬ first = (first :: rest).getLastD first →
      normalizeOuter ((first :: rest) :: holes) =
        some (((first :: rest) ++ [first]) :: holes)) ∧
    (∀ (first : Pt) (rest : LinearRing) (holes : List LinearRing),
      4 ≤ (first :: rest).length →
      first = (first :: rest).getLastD first →
      normalizeOuter ((first :: rest) :: holes) =
        some ((first :: rest) :: holes)) ∧
    (∀ (G : GeoOracle) (c : PolyCoords) (multi : List PolyCoords),
      normalizeOuter c = none →
      processRings G (c :: multi) = processRings G multi) := by
  refine ⟨?_, ?_, ?_, ?_⟩
  · intro outer holes h
    simp only [normalizeOuter]
    rw [if_pos h]
  · intro first rest holes hlen hne
    have hnl : ¬ (first :: rest).length < 4 := by omega
    simp only [normalizeOuter]
    rw [if_neg hnl, if_neg hne]
  · intro first rest holes hlen heq
    have hnl : ¬ (first :: rest).length < 4 := by omega
    simp only [normalizeOuter]
    rw [if_neg hnl, if_pos heq]
  · intro G c multi h
    have he : processRings G (c :: multi) =
        (match normalizeOuter c with
         | none => processRings G multi
         | some p =>
           if ringOk G p then
             ⟨p :: (processRings G multi).validPolys,
              (processRings G multi).dropped⟩
           else
             ⟨(processRings G multi).validPolys,
              measureDropped G p :: (processRings G multi).dropped⟩) := rfl
    rw [he, h]

/-- Witness for C8's amended theorem: a 2-point ring is skipped; a concrete
open 4-point ring is closed by appending its first point; a skipped ring
leaves the validation outputs unchanged. -/
theorem normalize_checks_before_closing_witness :
    ([((0 : ℚ), (0 : ℚ)), ((1 : ℚ), (0 : ℚ))] : LinearRing).length < 4 ∧
    normalizeOuter [[((0 : ℚ), (0 : ℚ)), ((1 : ℚ), (0 : ℚ))]] = none ∧
    normalizeOuter
        [[((0 : ℚ), (0 : ℚ)), ((1 : ℚ), (0 : ℚ)), ((1 : ℚ), (1 : ℚ)),
          ((0 : ℚ), (1 : ℚ))]] =
      some [[((0 : ℚ), (0 : ℚ)), ((1 : ℚ), (0 : ℚ)), ((1 : ℚ), (1 : ℚ)),
             ((0 : ℚ), (1 : ℚ)), ((0 : ℚ), (0 : ℚ))]] ∧
    processRings zeroOracle [[[((0 : ℚ), (0 : ℚ))]]] =
      processRings zeroOracle [] :=
  ⟨by decide,
   normalize_checks_before_closing.1 [((0 : ℚ), (0 : ℚ)), ((1 : ℚ), (0 : ℚ))]
     [] (by decide),
   normalize_checks_before_closing.2.1 ((0 : ℚ), (0 : ℚ))
     [((1 : ℚ), (0 : ℚ)), ((1 : ℚ), (1 : ℚ)), ((0 : ℚ), (1 : ℚ))] []
     (by decide) (by decide),
   normalize_checks_before_closing.2.2.2 zeroOracle
     [[((0 : ℚ), (0 : ℚ))]] [] (by decide)⟩

/-- The radius bound on drawn-circle hazards. -/
def circleRadiusBounded (th : TaggedHazard) : Prop :=
  ∀ r : ℚ, th.origin = HazardOrigin.drawnCircle r →
    r ≤ MAX_DRAWN_CIRCLE_RADIUS_M

theorem stepHazards_bounded (circleGeom : Pt → ℚ → Hazard)
    (hz : List TaggedHazard) (e : HazardEvent) (hne : noRebuild e = true)
    (h : ∀ th ∈ hz, circleRadiusBounded th) :
    ∀ th ∈ stepHazards circleGeom hz e, circleRadiusBounded th := by
  intro th hth
  cases e with
  | created layer =>
    cases layer with
    | circleLayer c r =>
      have hth' : th ∈ (if MAX_DRAWN_CIRCLE_RADIUS_M < r then hz
          else hz ++ [⟨.drawnCircle r, circleGeom c r⟩]) := hth
      by_cases hr : MAX_DRAWN_CIRCLE_RADIUS_M < r
      · rw [if_pos hr] at hth'
        exact h th hth'
      · rw [if_neg hr] at hth'
        rcases List.mem_append.mp hth' with hmem | hmem
        · exact h th hmem
        · obtain rfl := List.mem_singleton.mp hmem
          intro r' hr'
          obtain rfl : r = r' := by injection hr'
          exact le_of_not_lt hr
    | shapeLayer g =>
      have hth' : th ∈ hz ++ [⟨.drawnShape, g⟩] := hth
      rcases List.mem_append.mp hth' with hmem | hmem
      · exact h th hmem
      · obtain rfl := List.mem_singleton.mp hmem
        intro r' hr'
        exact absurd hr' (by simp)
    | otherLayer => exact h th hth
  | hazardPoint m p =>
    have hth' : th ∈ hz ++
        [⟨.bufferedPoint (max 1 m), circleGeom p (max 1 m / 1000)⟩] := hth
    rcases List.mem_append.mp hth' with hmem | hmem
    · exact h th hmem
    · obtain rfl := List.mem_singleton.mp hmem
      intro r' hr'
      exact absurd hr' (by simp)
  | clearHazards =>
    have hth' : th ∈ ([] : List TaggedHazard) := hth
    exact absurd hth' (List.not_mem_nil th)
  | edited layers => simp [noRebuild] at hne
  | deleted layers => simp [noRebuild] at hne

theorem foldl_stepHazards_bounded (circleGeom : Pt → ℚ → Hazard)
    (events : List HazardEvent) :
    ∀ hz : List TaggedHazard, (∀ e ∈ events, noRebuild e = true) →
      (∀ th ∈ hz, circleRadiusBounded th) →
      ∀ th ∈ events.foldl (stepHazards circleGeom) hz,
        circleRadiusBounded th := by
  induction events with
  | nil => intro hz _ h th hth; exact h th hth
  | cons e rest ih =>
    intro hz hne h th hth
    exact ih (stepHazards circleGeom hz e)
      (fun e' he' => hne e' (List.mem_cons_of_mem e he'))
      (stepHazards_bounded circleGeom hz e
        (hne e (List.mem_cons_self e rest)) h) th hth

/-- Counterexample to C10 as stated: the no-oversized-drawn-circle
invariant does not hold over all working-set histories.  A circle created
at 3000 meters and then resized to 6000 meters in draw-edit mode re-enters
the working set through the `onEdited` rebuild, which performs no radius
check — afterwards the set holds a drawn-circle hazard whose radius
exceeds `MAX_DRAWN_CIRCLE_RADIUS_M`. -/
theorem drawnCircle_radius_counterexample :
    runEvents (fun _ _ => Hazard.polygon [])
        [HazardEvent.created
          (DrawLayer.circleLayer ((0 : ℚ), (0 : ℚ)) 3000),
         HazardEvent.edited
          [DrawLayer.circleLayer ((0 : ℚ), (0 : ℚ)) 6000]] =
      [⟨HazardOrigin.drawnCircle 6000, Hazard.polygon []⟩] ∧
    MAX_DRAWN_CIRCLE_RADIUS_M < (6000 : ℚ) := by decide

/-- Claim C10 as amended: any circle drawn with radius above
`MAX_DRAWN_CIRCLE_RADIUS_M` (5000 meters) is rejected by `onCreated` and
never enters the hazard working set, and hazards of other origins are
exempt from the radius check — a buffered hazard point and a drawn polygon
layer are always appended, whatever their size; consequently, along every
event history free of the edit/delete rebuild callbacks, every
drawn-circle hazard in the set has radius at most 5000 meters.  The
invariant does not extend to edit histories: the rebuild shared by
`onEdited` and `onDeleted` re-adds a circle layer of any radius, even one
above the limit, with no check. -/
theorem drawnCircle_radius_invariant :
    (∀ (circleGeom : Pt → ℚ → Hazard) (events : List HazardEvent)
      (th : TaggedHazard) (r : ℚ),
      (∀ e ∈ events, noRebuild e = true) →
      th ∈ runEvents circleGeom events →
      th.origin = HazardOrigin.drawnCircle r →
      r ≤ MAX_DRAWN_CIRCLE_RADIUS_M) ∧
    (∀ (circleGeom : Pt → ℚ → Hazard) (c : Pt) (r : ℚ)
      (hz : List TaggedHazard), MAX_DRAWN_CIRCLE_RADIUS_M < r →
      onCreated circleGeom (DrawLayer.circleLayer c r) hz = hz) ∧
    (∀ (circleGeom : Pt → ℚ → Hazard) (m : ℚ) (p : Pt)
      (hz : List TaggedHazard),
      (addBufferedHazardPoint circleGeom m p hz).length = hz.length + 1) ∧
    (∀ (circleGeom : Pt → ℚ → Hazard) (g : Hazard)
      (hz : List TaggedHazard),
      (onCreated circleGeom (DrawLayer.shapeLayer g) hz).length =
        hz.length + 1) ∧
    (∀ (circleGeom : Pt → ℚ → Hazard) (c : Pt) (r : ℚ),
      MAX_DRAWN_CIRCLE_RADIUS_M < r →
      rebuildFromLayers circleGeom [DrawLayer.circleLayer c r] =
        [⟨HazardOrigin.drawnCircle r, circleGeom c r⟩]) := by
  refine ⟨?_, ?_, ?_, ?_, ?_⟩
  · intro circleGeom events th r hne hth hor
    exact foldl_stepHazards_bounded circleGeom events [] hne
      (by intro th' hth'; exact absurd hth' (List.not_mem_nil th'))
      th hth r hor
  · intro circleGeom c r hz hr
    simp only [onCreated]
    rw [if_pos hr]
  · intro circleGeom m p hz
    simp [addBufferedHazardPoint]
  · intro circleGeom g hz
    simp [onCreated]
  · intro circleGeom c r _
    rfl

/-- Witness for C10's amended theorem: a 3000-meter drawn circle enters
the working set through a rebuild-free history and satisfies the bound; a
6000-meter drawn circle is rejected at creation; a 9000-meter buffered
hazard point is still appended; and the edit rebuild re-adds a 6000-meter
circle layer unchecked. -/
theorem drawnCircle_radius_invariant_witness :
    (∀ e ∈ [HazardEvent.created
        (DrawLayer.circleLayer ((0 : ℚ), (0 : ℚ)) 3000)],
      noRebuild e = true) ∧
    (⟨HazardOrigin.drawnCircle 3000, Hazard.polygon []⟩ : TaggedHazard) ∈
      runEvents (fun _ _ => Hazard.polygon [])
        [HazardEvent.created
          (DrawLayer.circleLayer ((0 : ℚ), (0 : ℚ)) 3000)] ∧
    (3000 : ℚ) ≤ MAX_DRAWN_CIRCLE_RADIUS_M ∧
    MAX_DRAWN_CIRCLE_RADIUS_M < (6000 : ℚ) ∧
    onCreated (fun _ _ => Hazard.polygon [])
      (DrawLayer.circleLayer ((0 : ℚ), (0 : ℚ)) 6000) [] = [] ∧
    (addBufferedHazardPoint (fun _ _ => Hazard.polygon []) 9000
      ((0 : ℚ), (0 : ℚ)) []).length = 0 + 1 ∧
    rebuildFromLayers (fun _ _ => Hazard.polygon [])
      [DrawLayer.circleLayer ((0 : ℚ), (0 : ℚ)) 6000] =
      [⟨HazardOrigin.drawnCircle 6000, Hazard.polygon []⟩] :=
  ⟨by decide,
   by decide,
   drawnCircle_radius_invariant.1 (fun _ _ => Hazard.polygon [])
     [HazardEvent.created (DrawLayer.circleLayer ((0 : ℚ), (0 : ℚ)) 3000)]
     ⟨HazardOrigin.drawnCircle 3000, Hazard.polygon []⟩ 3000
     (by decide) (by decide) rfl,
   by decide,
   drawnCircle_radius_invariant.2.1 (fun _ _ => Hazard.polygon [])
     ((0 : ℚ), (0 : ℚ)) 6000 [] (by decide),
   drawnCircle_radius_invariant.2.2.1 (fun _ _ => Hazard.polygon [])
     9000 ((0 : ℚ), (0 : ℚ)) [],
   drawnCircle_radius_invariant.2.2.2.2 (fun _ _ => Hazard.polygon [])
     ((0 : ℚ), (0 : ℚ)) 6000 (by decide)⟩
